import Mathlib

/-!
Verification of the shape-algebra / slicing / validation / context layer of
the signatory library, file `src/misc.cpp` (namespace `signatory::misc`).

Tensors are modelled shallowly, at the granularity each operation observes:
* an operation that only narrows along one axis sees that axis as a `List`;
* `slice_by_term` applied along axis 1 of a (stream, channel, ...) buffer sees
  the buffer as a `List (List _)` (outer list = stream axis, inner = channel);
* shape-only validators (`checkargs`, `checkargs_backward`) see a tensor as its
  shape, a `List Nat` of axis lengths (torch sizes are nonnegative int64);
* `transpose` / `transpose_reverse` see a tensor as a view: a base-storage
  identifier, a shape, and a logical indexing function (`TView`), so that
  "no data is copied" is expressed as preservation of the base identifier;
* scalars of the `reciprocals` tensor are modelled as exact rationals.

`torch::Tensor::narrow(dim, start, len)` along a list axis is
`(l.drop start).take len`; `torch::linspace` and elementwise division are
modelled by their documented semantics over `ℚ`.
-/

namespace Signatory

/-- `torch::Tensor::narrow(dim, start, len)` restricted to the narrowed axis:
take `len` entries starting at `start`. -/
def narrowL (l : List α) (start len : Nat) : List α :=
  (l.drop start).take len

/-- `1 + c + c^2 + ... + c^(d-1)`: the geometric sum with `d` terms. -/
def geomSum (c : Nat) : Nat → Nat
  | 0 => 0
  | d + 1 => 1 + c * geomSum c d

/-- `c^1 + c^2 + ... + c^d`: the total number of channels of a depth-`d`
signature over `c` input channels (the length of the sliced axis). -/
def sigSum (c d : Nat) : Nat :=
  c * geomSum c d

/-- The loop body of `slice_by_term` (misc.cpp lines 40-52), specialised to the
narrowed axis itself: starting from memory position `pos` and block length
`len`, push `d` narrowed views, advancing `pos` by `len` and multiplying `len`
by `c` (`sigspec.input_channels`) each iteration. -/
def slice_by_term_go (l : List α) (c : Nat) : Nat → Nat → Nat → List (List α)
  | _, _, 0 => []
  | pos, len, d + 1 => narrowL l pos len :: slice_by_term_go l c (pos + len) (len * c) d

/-- `slice_by_term(in, out, dim, sigspec)` viewed along axis `dim`:
`current_memory_pos` starts at `0`, `current_memory_length` starts at
`sigspec.input_channels = c`, and the loop runs `sigspec.depth = depth`
times. -/
def slice_by_term (l : List α) (c depth : Nat) : List (List α) :=
  slice_by_term_go l c 0 c depth

/-- The loop body of `slice_by_term` applied along axis 1 of a buffer carrying
a leading stream axis: the buffer is `List (List α)` (outer = stream axis,
inner = the sliced channel axis), and `narrow(dim=1, pos, len)` narrows every
inner list. -/
def slice_by_term_dim1_go (t : List (List α)) (c : Nat) :
    Nat → Nat → Nat → List (List (List α))
  | _, _, 0 => []
  | pos, len, d + 1 =>
      t.map (fun row => narrowL row pos len) ::
        slice_by_term_dim1_go t c (pos + len) (len * c) d

/-- `slice_by_term(in, out, /*dim=*/1, sigspec)` on a buffer with a leading
stream axis. -/
def slice_by_term_dim1 (t : List (List α)) (c depth : Nat) : List (List (List α)) :=
  slice_by_term_dim1_go t c 0 c depth

/-- `elem.narrow(/*dim=*/0, stream_index, 1).squeeze(0)`: select the single
stream position `idx` of a view carrying a leading stream axis and drop that
axis. -/
def streamSqueeze (elem : List β) (idx : Nat) (dflt : β) : β :=
  (narrowL elem idx 1).getD 0 dflt

/-- `slice_at_stream(in, out, stream_index)` (misc.cpp lines 54-60): for each
per-degree view, narrow its leading stream axis to the single position
`stream_index` and squeeze that axis away. -/
def slice_at_stream (inv : List (List (List α))) (stream_index : Nat) :
    List (List α) :=
  inv.map (fun elem => streamSqueeze elem stream_index [])

/-- Modelled from the spec: `signature_channels` is declared in
`utilities.hpp`, which is not part of this file; the spec states
`output_channels = Σ_{i=1..depth} input_channels^i`.  Computed here as the
natural accumulation of the per-degree block sizes `channels^(i+1)` for
`i = 0, ..., depth-1`. -/
def signature_channels (channels depth : Nat) : Nat :=
  ((List.range depth).map (fun i => channels ^ (i + 1))).sum

/-- `torch::linspace(a, b, steps)`: `steps` evenly spaced values from `a` to
`b` inclusive; a single step yields just `a`.  Modelled over exact
rationals. -/
def linspace (a b : ℚ) (steps : Nat) : List ℚ :=
  if steps = 1 then [a]
  else (List.range steps).map (fun k : Nat => a + (k : ℚ) * (b - a) / ((steps : ℚ) - 1))

/-- The `reciprocals` member built by the `SigSpec` constructor (misc.cpp
lines 31-37): `torch::ones({depth - 1})`, divided elementwise by
`torch::linspace(2, depth, depth - 1)` when `depth > 1` (and left as the
empty ones tensor when `depth == 1`). -/
def reciprocalsSeq (depth : Nat) : List ℚ :=
  if 1 < depth then
    List.zipWith (fun a b => a / b)
      (List.replicate (depth - 1) (1 : ℚ))
      (linspace 2 (depth : ℚ) (depth - 1))
  else
    List.replicate (depth - 1) (1 : ℚ)

/-- The shape/scalar record `SigSpec` (misc.hpp / misc.cpp lines 22-38).  The
dtype/device descriptor `opts` carries no shape information and is omitted. -/
structure SigSpec where
  input_stream_size : Nat
  input_channels : Nat
  batch_size : Nat
  output_stream_size : Nat
  output_channels : Nat
  n_output_dims : Nat
  depth : Nat
  reciprocals : List ℚ
  stream : Bool
  basepoint : Bool
deriving DecidableEq

/-- The `SigSpec` constructor (misc.cpp lines 22-38).  The path is observed
only through its sizes, in internal layout: `size0 = path.size(0)` (stream),
`size1 = path.size(1)` (channel), `size2 = path.size(2)` (batch). -/
def SigSpec.make (size0 size1 size2 : Nat) (depth : Nat) (stream basepoint : Bool) :
    SigSpec where
  input_stream_size := size0
  input_channels := size1
  batch_size := size2
  output_stream_size := size0 - (if basepoint then 0 else 1)
  output_channels := signature_channels size1 depth
  n_output_dims := if stream then 3 else 2
  depth := depth
  reciprocals := reciprocalsSeq depth
  stream := stream
  basepoint := basepoint

/-- A tensor view: an identifier of the backing storage, a shape, and a
logical indexing function.  Axis-permuting operations produce a view with the
same `base`, which is how "no data is copied" is observable in the model. -/
structure TView (α : Type) where
  base : Nat
  shape : List Nat
  get : List Nat → α

/-- Swap positions `i` and `j` of an index (or shape) list; positions beyond
the end of the list are read as `0` and writes to them are dropped, matching
out-of-range behaviour never exercised on rank-compatible tensors. -/
def swapIdx (i j : Nat) (l : List Nat) : List Nat :=
  (l.set i (l.getD j 0)).set j (l.getD i 0)

/-- `torch::Tensor::transpose(i, j)`: swap axes `i` and `j` of a view.  The
result aliases the same storage; entry at index `idx` is the input's entry at
the swapped index. -/
def TView.transposeDims (t : TView α) (i j : Nat) : TView α where
  base := t.base
  shape := swapIdx i j t.shape
  get := fun idx => t.get (swapIdx i j idx)

/-- `transpose(tensor, sigspec)` (misc.cpp lines 62-70): with `stream`,
convert from (stream, channel, batch) to (batch, stream, channel) via
`transpose(1,2)` then `transpose(0,1)`; otherwise from (channel, batch) to
(batch, channel) via `transpose(0,1)`. -/
def transpose (tensor : TView α) (sigspec : SigSpec) : TView α :=
  if sigspec.stream then
    (tensor.transposeDims 1 2).transposeDims 0 1
  else
    tensor.transposeDims 0 1

/-- `transpose_reverse(tensor, sigspec)` (misc.cpp lines 72-80): with
`stream`, convert from (batch, stream, channel) to (stream, channel, batch)
via `transpose(0,1)` then `transpose(1,2)`; otherwise `transpose(0,1)`. -/
def transpose_reverse (tensor : TView α) (sigspec : SigSpec) : TView α :=
  if sigspec.stream then
    (tensor.transposeDims 0 1).transposeDims 1 2
  else
    tensor.transposeDims 0 1

/-- `is_even` (misc.cpp lines 82-84). -/
def is_even (index : Int) : Bool :=
  index % 2 == 0

/-- One value per distinct `std::invalid_argument` message thrown by
`checkargs` (misc.cpp lines 119-146), in source order:
* `pathNot3d` — "Argument 'path' must be a 3-dimensional tensor, with
  dimensions corresponding to (batch, stream, channel) respectively."
* `pathZeroSize` — "Argument 'path' cannot have dimensions of size zero."
* `streamTooShort` — "Argument 'path' must have stream dimension of size at
  least 2. (Need at least this many points to define a path.)"
* `depthTooSmall` — "Argument 'depth' must be an integer greater than or
  equal to one."
* `basepointNot2d` — "Argument 'basepoint' must be a 2-dimensional tensor,
  corresponding to (batch, channel) respectively."
* `basepointSizeMismatch` — "Arguments 'basepoint' and 'path' must have
  dimensions of the same size." -/
inductive CheckArgsError
  | pathNot3d
  | pathZeroSize
  | streamTooShort
  | depthTooSmall
  | basepointNot2d
  | basepointSizeMismatch
deriving DecidableEq

/-- `checkargs(path, depth, basepoint, basepoint_value)` (misc.cpp lines
119-146).  Both tensors are observed only through their shapes (`path` in
external layout (batch, stream, channel), `basepoint_value` in
(batch, channel)); `depth` is a signed `size_type`.  Each `throw` becomes the
corresponding `CheckArgsError`, in source order. -/
def checkargs (path : List Nat) (depth : Int) (basepoint : Bool)
    (basepoint_value : List Nat) : Except CheckArgsError Unit :=
  if path.length ≠ 3 then
    .error .pathNot3d
  else if path.getD 0 0 = 0 ∨ path.getD 1 0 = 0 ∨ path.getD 2 0 = 0 then
    .error .pathZeroSize
  else if basepoint = false ∧ path.getD 1 0 = 1 then
    .error .streamTooShort
  else if depth < 1 then
    .error .depthTooSmall
  else if basepoint then
    if basepoint_value.length ≠ 2 then
      .error .basepointNot2d
    else if basepoint_value.getD 0 0 ≠ path.getD 0 0 ∨
        basepoint_value.getD 1 0 ≠ path.getD 2 0 then
      .error .basepointSizeMismatch
    else
      .ok ()
  else
    .ok ()

/-- `checkargs_backward(grad_out, sigspec, num_channels)` (misc.cpp lines
148-174).  `grad_out` is observed only through its shape; `num_channels` is a
signed `int64_t` whose sentinel `-1` resolves to `sigspec.output_channels`.
The messages are kept verbatim, including the missing space in the
2-dimensional message produced by the adjacent string literals of the
source. -/
def checkargs_backward (grad_out : List Nat) (sigspec : SigSpec)
    (num_channels : Int) : Except String Unit :=
  let nc : Int := if num_channels = -1 then (sigspec.output_channels : Int) else num_channels
  if sigspec.stream then
    if grad_out.length ≠ 3 then
      .error "Gradient must be a 3-dimensional tensor, with dimensions corresponding to (batch, stream, channel) respectively."
    else if grad_out.getD 0 0 ≠ sigspec.batch_size ∨
        grad_out.getD 1 0 ≠ sigspec.output_stream_size ∨
        (grad_out.getD 2 0 : Int) ≠ nc then
      .error "Gradient has the wrong size."
    else
      .ok ()
  else
    if grad_out.length ≠ 2 then
      .error "Gradient must be a 2-dimensional tensor, with dimensionscorresponding to (batch, channel) respectively."
    else if grad_out.getD 0 0 ≠ sigspec.batch_size ∨
        (grad_out.getD 1 0 : Int) ≠ nc then
      .error "Gradient has the wrong size."
    else
      .ok ()

/-- Modelled from the spec: `LogSignatureMode` is declared in `misc.hpp`,
which is not part of this file; the spec states the mode is one of
{Expand, Brackets, Words}. -/
inductive LogSignatureMode
  | Expand
  | Brackets
  | Words
deriving DecidableEq

/-- `BackwardsInfo` (misc.hpp / misc.cpp lines 86-102), parameterised by the
tensor type `T`.  The four log-signature members are default-initialised at
construction and assigned only by `set_logsignature_data`
(`logsignature_channels`, an uninitialised `int64_t` in the source, is given
an arbitrary default). -/
structure BackwardsInfo (T : Type) where
  sigspec : SigSpec
  out_vector : List T
  out : T
  path_increments : T
  signature_vector : List T := []
  transforms : List (Int × Int × Int) := []
  mode : LogSignatureMode := .Expand
  logsignature_channels : Int := 0

/-- The `BackwardsInfo` constructor (misc.cpp lines 86-92): stores the moved
`sigspec` and `out_vector` together with `out` and `path_increments`. -/
def BackwardsInfo.make (sigspec : SigSpec) (out_vector : List T)
    (out path_increments : T) : BackwardsInfo T where
  sigspec := sigspec
  out_vector := out_vector
  out := out
  path_increments := path_increments

/-- `BackwardsInfo::set_logsignature_data` (misc.cpp lines 94-102): assigns
exactly the four log-signature members. -/
def BackwardsInfo.set_logsignature_data (bi : BackwardsInfo T)
    (signature_vector : List T) (transforms : List (Int × Int × Int))
    (mode : LogSignatureMode) (logsignature_channels : Int) : BackwardsInfo T :=
  { bi with
    signature_vector := signature_vector
    transforms := transforms
    mode := mode
    logsignature_channels := logsignature_channels }

/-- `detail::backwards_info_capsule_name` (misc.cpp line 15). -/
def backwards_info_capsule_name : String :=
  "signatory.BackwardsInfoCapsule"

/-- A PyCapsule holding a `BackwardsInfo` pointer: the stored name tag plus
the payload. -/
structure Capsule (T : Type) where
  name : String
  pointer : BackwardsInfo T

/-- `PyCapsule_New(pointer, name, destructor)`: wrap the pointer under the
given name tag. -/
def PyCapsule_New (pointer : BackwardsInfo T) (name : String) : Capsule T :=
  ⟨name, pointer⟩

/-- `PyCapsule_GetPointer(capsule, name)`: return the stored pointer when the
tag matches, and `none` (NULL, with a pending TypeError raised to the caller)
when it does not. -/
def PyCapsule_GetPointer (capsule : Capsule T) (name : String) :
    Option (BackwardsInfo T) :=
  if capsule.name = name then some capsule.pointer else none

/-- `make_backwards_info(out_vector, out, path_increments, sigspec)` (misc.cpp
lines 104-112): allocate a `BackwardsInfo` from the four arguments and wrap it
in a capsule tagged `backwards_info_capsule_name`. -/
def make_backwards_info (out_vector : List T) (out path_increments : T)
    (sigspec : SigSpec) : Capsule T :=
  PyCapsule_New (BackwardsInfo.make sigspec out_vector out path_increments)
    backwards_info_capsule_name

/-- `get_backwards_info(backwards_info_capsule)` (misc.cpp lines 114-117):
retrieve the pointer via `PyCapsule_GetPointer` with the process-wide tag. -/
def get_backwards_info (backwards_info_capsule : Capsule T) :
    Option (BackwardsInfo T) :=
  PyCapsule_GetPointer backwards_info_capsule backwards_info_capsule_name

/-- A concrete rank-3 view used to instantiate the transpose round-trip. -/
def sampleView : TView Nat where
  base := 5
  shape := [2, 3, 4]
  get := fun idx => idx.sum

/-- A concrete `SigSpec` with `stream = true`. -/
def sampleSpec : SigSpec :=
  SigSpec.make 4 2 3 2 true false

/-- A concrete capsule carrying a tag other than
`backwards_info_capsule_name`. -/
def badCapsule : Capsule Unit :=
  ⟨"signatory.SomethingElse", BackwardsInfo.make (SigSpec.make 2 1 1 1 false false) [] () ()⟩

/-! ## Helper lemmas -/

theorem narrowL_append (l : List α) (pos len m : Nat) :
    narrowL l pos len ++ narrowL l (pos + len) m = narrowL l pos (len + m) := by
  unfold narrowL
  rw [List.take_add, List.drop_drop]

theorem geomSum_succ_right (c : Nat) (i : Nat) :
    geomSum c (i + 1) = geomSum c i + c ^ i := by
  induction i with
  | zero => simp [geomSum]
  | succ i ih =>
      calc geomSum c (i + 1 + 1) = 1 + c * geomSum c (i + 1) := rfl
        _ = 1 + c * (geomSum c i + c ^ i) := by rw [ih]
        _ = (1 + c * geomSum c i) + c ^ i * c := by ring
        _ = geomSum c (i + 1) + c ^ (i + 1) := by rw [pow_succ]; rfl

theorem geomSum_mono (c : Nat) {i d : Nat} (h : i ≤ d) :
    geomSum c i ≤ geomSum c d := by
  induction d generalizing i with
  | zero =>
      obtain rfl := Nat.le_zero.mp h
      exact Nat.le_refl _
  | succ d ih =>
      cases i with
      | zero => exact Nat.zero_le _
      | succ i =>
          show 1 + c * geomSum c i ≤ 1 + c * geomSum c d
          exact Nat.add_le_add_left (Nat.mul_le_mul (Nat.le_refl c) (ih (by omega))) 1

theorem slice_by_term_go_length (l : List α) (c : Nat) (d pos len : Nat) :
    (slice_by_term_go l c pos len d).length = d := by
  induction d generalizing pos len with
  | zero => rfl
  | succ d ih => simp [slice_by_term_go, ih]

theorem slice_by_term_go_flatten (l : List α) (c : Nat) (d pos len : Nat) :
    (slice_by_term_go l c pos len d).flatten = narrowL l pos (len * geomSum c d) := by
  induction d generalizing pos len with
  | zero => simp [slice_by_term_go, geomSum, narrowL]
  | succ d ih =>
      rw [slice_by_term_go, List.flatten_cons, ih, narrowL_append, geomSum]
      ring_nf

theorem slice_by_term_go_getD (l : List α) (c : Nat) (d pos len i : Nat)
    (hi : i < d) :
    (slice_by_term_go l c pos len d).getD i [] =
      narrowL l (pos + len * geomSum c i) (len * c ^ i) := by
  induction d generalizing pos len i with
  | zero => omega
  | succ d ih =>
      cases i with
      | zero => simp [slice_by_term_go, geomSum]
      | succ i =>
          rw [slice_by_term_go]
          have := ih (pos + len) (len * c) i (by omega)
          simp only [List.getD_cons_succ, this, geomSum]
          congr 1
          · ring
          · rw [pow_succ]
            ring

theorem narrowL_length_of_le (l : List α) (pos len : Nat)
    (h : pos + len ≤ l.length) : (narrowL l pos len).length = len := by
  unfold narrowL
  rw [List.length_take, List.length_drop]
  omega

theorem streamSqueeze_eq_getD (l : List β) (idx : Nat) (dflt : β)
    (h : idx < l.length) : streamSqueeze l idx dflt = l.getD idx dflt := by
  unfold streamSqueeze narrowL
  rw [List.drop_eq_getElem_cons h]
  simp [List.getD_eq_getElem, h]

theorem slice_at_stream_cons (e : List (List α)) (rest : List (List (List α)))
    (idx : Nat) :
    slice_at_stream (e :: rest) idx =
      streamSqueeze e idx [] :: slice_at_stream rest idx := rfl

theorem slice_at_stream_go_comm (t : List (List α)) (c : Nat) (idx : Nat)
    (h : idx < t.length) (d pos len : Nat) :
    slice_at_stream (slice_by_term_dim1_go t c pos len d) idx =
      slice_by_term_go (t.getD idx []) c pos len d := by
  induction d generalizing pos len with
  | zero => rfl
  | succ d ih =>
      rw [slice_by_term_dim1_go, slice_at_stream_cons, ih, slice_by_term_go]
      congr 1
      have hm : idx < (t.map fun row => narrowL row pos len).length := by
        simpa using h
      rw [streamSqueeze_eq_getD _ _ _ hm, List.getD_eq_getElem _ _ hm,
        List.getElem_map, List.getD_eq_getElem _ _ h]

theorem signature_channels_eq_sum (c d : Nat) :
    signature_channels c d = ∑ i ∈ Finset.Icc 1 d, c ^ i := by
  induction d with
  | zero => simp [signature_channels]
  | succ d ih =>
      unfold signature_channels
      rw [List.sum_range_succ]
      have hprev : ((List.range d).map (fun i => c ^ (i + 1))).sum =
          signature_channels c d := rfl
      rw [hprev, ih, Finset.sum_Icc_succ_top (by omega : 1 ≤ d + 1)]

theorem linspace_length (a b : ℚ) (steps : Nat) :
    (linspace a b steps).length = steps := by
  unfold linspace
  split
  · simp [*]
  · simp

theorem linspace_two_getD (depth k : Nat) (hd : 2 ≤ depth) (hk : k < depth - 1) :
    (linspace 2 (depth : ℚ) (depth - 1)).getD k 0 = (k : ℚ) + 2 := by
  rcases Nat.lt_or_ge depth 3 with h3 | h3
  · have hdepth : depth = 2 := by omega
    subst hdepth
    have hkz : k = 0 := by omega
    subst hkz
    norm_num [linspace]
  · have hs : depth - 1 ≠ 1 := by omega
    unfold linspace
    rw [if_neg hs]
    have hlen : k < ((List.range (depth - 1)).map
        (fun j : Nat => (2 : ℚ) + (j : ℚ) * ((depth : ℚ) - 2) /
          (((depth - 1 : Nat) : ℚ) - 1))).length := by
      simpa using hk
    rw [List.getD_eq_getElem _ _ hlen]
    simp only [List.getElem_map, List.getElem_range]
    have hcast : ((depth - 1 : Nat) : ℚ) = (depth : ℚ) - 1 :=
      Nat.cast_sub (by omega)
    rw [hcast]
    have hD : (depth : ℚ) - 2 ≠ 0 := by
      have : (3 : ℚ) ≤ (depth : ℚ) := by exact_mod_cast h3
      linarith
    have hsub : (depth : ℚ) - 1 - 1 = (depth : ℚ) - 2 := by ring
    rw [hsub, mul_div_assoc, div_self hD, mul_one, add_comm]

theorem reciprocalsSeq_length (depth : Nat) :
    (reciprocalsSeq depth).length = depth - 1 := by
  unfold reciprocalsSeq
  split
  · rw [List.length_zipWith, List.length_replicate, linspace_length]
    simp
  · simp

theorem reciprocalsSeq_getD (depth k : Nat) (hk : k < depth - 1) :
    (reciprocalsSeq depth).getD k 0 = 1 / ((k : ℚ) + 2) := by
  have hd : 2 ≤ depth := by omega
  unfold reciprocalsSeq
  rw [if_pos (by omega : 1 < depth)]
  have hlen : k < (List.zipWith (fun a b => a / b)
      (List.replicate (depth - 1) (1 : ℚ))
      (linspace 2 (depth : ℚ) (depth - 1))).length := by
    rw [List.length_zipWith, List.length_replicate, linspace_length]
    omega
  rw [List.getD_eq_getElem _ _ hlen, List.getElem_zipWith, List.getElem_replicate]
  have h2 := linspace_two_getD depth k hd hk
  rw [List.getD_eq_getElem _ _ (by rw [linspace_length]; omega)] at h2
  rw [h2]

theorem swapIdx_length (i j : Nat) (l : List Nat) :
    (swapIdx i j l).length = l.length := by
  simp [swapIdx]

theorem swapIdx01_swapIdx01_two (l : List Nat) (h : l.length = 2) :
    swapIdx 0 1 (swapIdx 0 1 l) = l := by
  obtain ⟨a, b, rfl⟩ := List.length_eq_two.mp h
  rfl

theorem swapIdx01_swapIdx01_three (l : List Nat) (h : l.length = 3) :
    swapIdx 0 1 (swapIdx 0 1 l) = l := by
  obtain ⟨a, b, c, rfl⟩ := List.length_eq_three.mp h
  rfl

theorem swapIdx12_swapIdx12_three (l : List Nat) (h : l.length = 3) :
    swapIdx 1 2 (swapIdx 1 2 l) = l := by
  obtain ⟨a, b, c, rfl⟩ := List.length_eq_three.mp h
  rfl

/-! ## Claim theorems -/

/-- C1: on a buffer whose sliced axis has length `sigSum c depth`
(`= Σ_{i=1..depth} c^i`), `slice_by_term` returns exactly `depth` views; the
`i`-th (0-based) view is the alias of the buffer starting at offset
`sigSum c i` with length `c^(i+1)` along that axis, so the lengths are
`c^1, ..., c^depth` in increasing-degree order; and concatenating the views
in order reconstructs the buffer exactly. -/
theorem slice_by_term_spec (l : List α) (c depth : Nat)
    (h : l.length = sigSum c depth) :
    (slice_by_term l c depth).length = depth ∧
    (∀ i, i < depth →
      (slice_by_term l c depth).getD i [] = narrowL l (sigSum c i) (c ^ (i + 1)) ∧
      ((slice_by_term l c depth).getD i []).length = c ^ (i + 1)) ∧
    (slice_by_term l c depth).flatten = l := by
  refine ⟨slice_by_term_go_length l c depth 0 c, ?_, ?_⟩
  · intro i hi
    have hEq : (slice_by_term l c depth).getD i [] =
        narrowL l (sigSum c i) (c ^ (i + 1)) := by
      rw [slice_by_term, slice_by_term_go_getD l c depth 0 c i hi]
      congr 1
      · simp [sigSum]
      · rw [pow_succ]; ring
    refine ⟨hEq, ?_⟩
    rw [hEq]
    apply narrowL_length_of_le
    have h1 : sigSum c i + c ^ (i + 1) = c * geomSum c (i + 1) := by
      rw [geomSum_succ_right, sigSum, pow_succ]
      ring
    have h2 : c * geomSum c (i + 1) ≤ c * geomSum c depth :=
      Nat.mul_le_mul (Nat.le_refl c) (geomSum_mono c (by omega))
    have h3 : sigSum c depth = c * geomSum c depth := rfl
    omega
  · rw [slice_by_term, slice_by_term_go_flatten]
    have hL : c * geomSum c depth = l.length := by
      rw [h]; rfl
    rw [hL]
    unfold narrowL
    simp

/-- C1 witness: channels 3, depth 3, buffer of length 39 = 3 + 9 + 27. -/
theorem slice_by_term_spec_witness :
    (List.range 39).length = sigSum 3 3 ∧
    ((slice_by_term (List.range 39) 3 3).getD 1 []).length = 3 ^ 2 ∧
    (slice_by_term (List.range 39) 3 3).flatten = List.range 39 :=
  ⟨by decide,
   ((slice_by_term_spec (List.range 39) 3 3 (by decide)).2.1 1 (by decide)).2,
   (slice_by_term_spec (List.range 39) 3 3 (by decide)).2.2⟩

/-- C2: for all `channels ≥ 1` and `depth ≥ 1`, the `output_channels` field
computed by the `SigSpec` constructor equals `Σ_{i=1..depth} channels^i`, and
in particular equals `channels` when `depth = 1`. -/
theorem output_channels_spec (size0 size1 size2 : Nat) (depth : Nat)
    (stream basepoint : Bool) (hc : 1 ≤ size1) (hd : 1 ≤ depth) :
    (SigSpec.make size0 size1 size2 depth stream basepoint).output_channels =
      ∑ i ∈ Finset.Icc 1 depth, size1 ^ i ∧
    (depth = 1 →
      (SigSpec.make size0 size1 size2 depth stream basepoint).output_channels
        = size1) := by
  constructor
  · exact signature_channels_eq_sum size1 depth
  · rintro rfl
    show signature_channels size1 1 = size1
    simp [signature_channels, List.range_succ]

/-- C2 witness: channels 3, depth 3 gives 3 + 9 + 27 = 39. -/
theorem output_channels_spec_witness :
    1 ≤ 3 ∧ 1 ≤ 3 ∧
    ((SigSpec.make 5 3 2 3 false false).output_channels =
      ∑ i ∈ Finset.Icc 1 3, 3 ^ i) ∧
    (SigSpec.make 5 3 2 3 false false).output_channels = 39 :=
  ⟨by decide, by decide,
   (output_channels_spec 5 3 2 3 false false (by decide) (by decide)).1,
   by decide⟩

/-- C4: for every spec and every view `x` of the compatible rank (3 axes when
`stream`, 2 otherwise), `transpose_reverse (transpose x spec) spec` is
observably identical to `x`: it aliases the same backing storage (so no data
is copied by either operation, witnessed by the preserved `base`), has the
same shape, and reads the same element at every logical index. -/
theorem transpose_roundtrip (x : TView α) (spec : SigSpec)
    (h : x.shape.length = if spec.stream then 3 else 2) :
    (transpose x spec).base = x.base ∧
    (transpose_reverse (transpose x spec) spec).base = x.base ∧
    (transpose_reverse (transpose x spec) spec).shape = x.shape ∧
    (∀ idx : List Nat, idx.length = x.shape.length →
      (transpose_reverse (transpose x spec) spec).get idx = x.get idx) := by
  cases hs : spec.stream with
  | false =>
      simp only [hs, Bool.false_eq_true, if_false] at h
      simp only [transpose, transpose_reverse, hs, Bool.false_eq_true, if_false,
        TView.transposeDims]
      refine ⟨trivial, trivial, swapIdx01_swapIdx01_two x.shape h, ?_⟩
      intro idx hidx
      rw [swapIdx01_swapIdx01_two idx (by omega)]
  | true =>
      simp only [hs, if_true] at h
      simp only [transpose, transpose_reverse, hs, if_true, TView.transposeDims]
      refine ⟨trivial, trivial, ?_, ?_⟩
      · rw [swapIdx01_swapIdx01_three _ (by rw [swapIdx_length]; exact h),
          swapIdx12_swapIdx12_three _ h]
      · intro idx hidx
        rw [swapIdx01_swapIdx01_three _ (by rw [swapIdx_length]; omega),
          swapIdx12_swapIdx12_three _ (by omega)]

/-- C4 witness: a rank-3 view with shape [2, 3, 4] under a `stream = true`
spec, read back at index [7, 8, 9]. -/
theorem transpose_roundtrip_witness :
    (sampleView.shape.length = if sampleSpec.stream then 3 else 2) ∧
    (transpose sampleView sampleSpec).base = sampleView.base ∧
    (transpose_reverse (transpose sampleView sampleSpec) sampleSpec).shape =
      sampleView.shape ∧
    (transpose_reverse (transpose sampleView sampleSpec) sampleSpec).get [7, 8, 9] =
      sampleView.get [7, 8, 9] :=
  ⟨by decide,
   (transpose_roundtrip sampleView sampleSpec (by decide)).1,
   (transpose_roundtrip sampleView sampleSpec (by decide)).2.2.1,
   (transpose_roundtrip sampleView sampleSpec (by decide)).2.2.2 [7, 8, 9] (by decide)⟩

/-- C6: for every `depth ≥ 1`, the `reciprocals` sequence built by the
`SigSpec` constructor has length `depth - 1`, its `k`-th (0-based) element is
`1 / (k + 2)` — i.e. the sequence is `1/2, 1/3, ..., 1/depth` — and it is
empty when `depth = 1`. -/
theorem reciprocals_spec (size0 size1 size2 : Nat) (depth : Nat)
    (stream basepoint : Bool) (hd : 1 ≤ depth) :
    (SigSpec.make size0 size1 size2 depth stream basepoint).reciprocals.length
      = depth - 1 ∧
    (∀ k, k < depth - 1 →
      (SigSpec.make size0 size1 size2 depth stream basepoint).reciprocals.getD k 0
        = 1 / ((k : ℚ) + 2)) ∧
    (depth = 1 →
      (SigSpec.make size0 size1 size2 depth stream basepoint).reciprocals = []) := by
  refine ⟨reciprocalsSeq_length depth, fun k hk => reciprocalsSeq_getD depth k hk, ?_⟩
  rintro rfl
  rfl

/-- C6 witness: depth 3 gives the sequence 1/2, 1/3. -/
theorem reciprocals_spec_witness :
    1 ≤ 3 ∧
    (SigSpec.make 5 3 2 3 false false).reciprocals.length = 3 - 1 ∧
    (SigSpec.make 5 3 2 3 false false).reciprocals.getD 1 0 =
      1 / (((1 : Nat) : ℚ) + 2) :=
  ⟨by decide,
   (reciprocals_spec 5 3 2 3 false false (by decide)).1,
   (reciprocals_spec 5 3 2 3 false false (by decide)).2.1 1 (by decide)⟩

/-- C7: applying `slice_at_stream` to the output of `slice_by_term` (taken
along axis 1, below a leading stream axis) at a valid `stream_index` yields,
degree by degree, the same views as first narrowing the original buffer to
that single stream position (with the stream axis squeezed away) and then
slicing by term: the two operation orders commute. -/
theorem slice_at_stream_slice_by_term_comm (t : List (List α))
    (c depth stream_index : Nat) (h : stream_index < t.length) :
    slice_at_stream (slice_by_term_dim1 t c depth) stream_index =
      slice_by_term (streamSqueeze t stream_index []) c depth := by
  rw [slice_by_term_dim1, slice_by_term,
    slice_at_stream_go_comm t c stream_index h,
    streamSqueeze_eq_getD t stream_index [] h]

/-- C7 witness: a stream of length 2 over a channel axis of length
6 = 2 + 4 (channels 2, depth 2), sliced at stream position 1. -/
theorem slice_at_stream_slice_by_term_comm_witness :
    1 < ([[0, 1, 2, 3, 4, 5], [6, 7, 8, 9, 10, 11]] : List (List Nat)).length ∧
    slice_at_stream
        (slice_by_term_dim1 [[0, 1, 2, 3, 4, 5], [6, 7, 8, 9, 10, 11]] 2 2) 1 =
      slice_by_term (streamSqueeze
        ([[0, 1, 2, 3, 4, 5], [6, 7, 8, 9, 10, 11]] : List (List Nat)) 1 []) 2 2 :=
  ⟨by decide,
   slice_at_stream_slice_by_term_comm [[0, 1, 2, 3, 4, 5], [6, 7, 8, 9, 10, 11]]
     2 2 1 (by decide)⟩

/-- C3: `checkargs` performs its checks in source order and throws the error
carrying the specific message of the first violated condition: path has
exactly 3 axes; no axis of path has length zero; if `basepoint` is false the
stream axis has length at least 2; `depth` is at least 1; if `basepoint` is
true then `basepoint_value` has exactly 2 axes whose (batch, channel) lengths
equal path's (batch, channel) lengths; and it returns without error exactly
when no condition is violated. -/
theorem checkargs_spec (path : List Nat) (depth : Int) (basepoint : Bool)
    (bpv : List Nat) :
    (checkargs path depth basepoint bpv = .error .pathNot3d ↔
      path.length ≠ 3) ∧
    (checkargs path depth basepoint bpv = .error .pathZeroSize ↔
      path.length = 3 ∧
      (path.getD 0 0 = 0 ∨ path.getD 1 0 = 0 ∨ path.getD 2 0 = 0)) ∧
    (checkargs path depth basepoint bpv = .error .streamTooShort ↔
      path.length = 3 ∧ path.getD 0 0 ≠ 0 ∧ path.getD 1 0 ≠ 0 ∧
      path.getD 2 0 ≠ 0 ∧ basepoint = false ∧ ¬ 2 ≤ path.getD 1 0) ∧
    (checkargs path depth basepoint bpv = .error .depthTooSmall ↔
      path.length = 3 ∧ path.getD 0 0 ≠ 0 ∧ path.getD 1 0 ≠ 0 ∧
      path.getD 2 0 ≠ 0 ∧ (basepoint = false → 2 ≤ path.getD 1 0) ∧
      depth < 1) ∧
    (checkargs path depth basepoint bpv = .error .basepointNot2d ↔
      path.length = 3 ∧ path.getD 0 0 ≠ 0 ∧ path.getD 1 0 ≠ 0 ∧
      path.getD 2 0 ≠ 0 ∧ (basepoint = false → 2 ≤ path.getD 1 0) ∧
      1 ≤ depth ∧ basepoint = true ∧ bpv.length ≠ 2) ∧
    (checkargs path depth basepoint bpv = .error .basepointSizeMismatch ↔
      path.length = 3 ∧ path.getD 0 0 ≠ 0 ∧ path.getD 1 0 ≠ 0 ∧
      path.getD 2 0 ≠ 0 ∧ (basepoint = false → 2 ≤ path.getD 1 0) ∧
      1 ≤ depth ∧ basepoint = true ∧ bpv.length = 2 ∧
      (bpv.getD 0 0 ≠ path.getD 0 0 ∨ bpv.getD 1 0 ≠ path.getD 2 0)) ∧
    (checkargs path depth basepoint bpv = .ok () ↔
      path.length = 3 ∧ path.getD 0 0 ≠ 0 ∧ path.getD 1 0 ≠ 0 ∧
      path.getD 2 0 ≠ 0 ∧ (basepoint = false → 2 ≤ path.getD 1 0) ∧
      1 ≤ depth ∧ (basepoint = true → bpv.length = 2 ∧
        bpv.getD 0 0 = path.getD 0 0 ∧ bpv.getD 1 0 = path.getD 2 0)) := by
  cases basepoint <;>
    · unfold checkargs
      split_ifs <;>
        simp_all only [ne_eq, reduceCtorEq, Except.error.injEq, Except.ok.injEq,
          Bool.false_eq_true, Bool.true_eq_false, eq_self_iff_true,
          not_true, not_false_iff, not_false_eq_true, true_and, and_true,
          false_and, and_false, true_implies, false_implies, implies_true,
          true_iff, iff_true, false_iff, iff_false, not_not] <;>
        omega

/-- C10: when `basepoint` is false, the outcome of `checkargs` — acceptance
or the exact error raised — is identical for every `basepoint_value`, of any
shape: the basepoint value is never inspected. -/
theorem checkargs_ignores_basepoint_value (path : List Nat) (depth : Int)
    (bpv1 bpv2 : List Nat) :
    checkargs path depth false bpv1 = checkargs path depth false bpv2 := by
  unfold checkargs
  split_ifs <;> simp_all

/-- C5: `checkargs_backward` accepts the gradient exactly when its rank and
per-axis sizes match the spec-derived expectations (3 axes of sizes
(batch_size, output_stream_size, num_channels) when `stream`, 2 axes of sizes
(batch_size, num_channels) otherwise, where the sentinel `num_channels = -1`
resolves to `sigspec.output_channels`); a rank mismatch yields the rank
message and a size mismatch yields "Gradient has the wrong size."; and the
sentinel call behaves identically to passing `sigspec.output_channels`. -/
theorem checkargs_backward_spec (grad : List Nat) (sigspec : SigSpec)
    (num_channels : Int) :
    (sigspec.stream = true →
      ((checkargs_backward grad sigspec num_channels = .ok () ↔
        grad.length = 3 ∧ grad.getD 0 0 = sigspec.batch_size ∧
        grad.getD 1 0 = sigspec.output_stream_size ∧
        (grad.getD 2 0 : Int) =
          (if num_channels = -1 then (sigspec.output_channels : Int)
           else num_channels)) ∧
       (checkargs_backward grad sigspec num_channels = .error "Gradient must be a 3-dimensional tensor, with dimensions corresponding to (batch, stream, channel) respectively." ↔
        grad.length ≠ 3) ∧
       (checkargs_backward grad sigspec num_channels = .error "Gradient has the wrong size." ↔
        grad.length = 3 ∧ ¬(grad.getD 0 0 = sigspec.batch_size ∧
          grad.getD 1 0 = sigspec.output_stream_size ∧
          (grad.getD 2 0 : Int) =
            (if num_channels = -1 then (sigspec.output_channels : Int)
             else num_channels))))) ∧
    (sigspec.stream = false →
      ((checkargs_backward grad sigspec num_channels = .ok () ↔
        grad.length = 2 ∧ grad.getD 0 0 = sigspec.batch_size ∧
        (grad.getD 1 0 : Int) =
          (if num_channels = -1 then (sigspec.output_channels : Int)
           else num_channels)) ∧
       (checkargs_backward grad sigspec num_channels = .error "Gradient must be a 2-dimensional tensor, with dimensionscorresponding to (batch, channel) respectively." ↔
        grad.length ≠ 2) ∧
       (checkargs_backward grad sigspec num_channels = .error "Gradient has the wrong size." ↔
        grad.length = 2 ∧ ¬(grad.getD 0 0 = sigspec.batch_size ∧
          (grad.getD 1 0 : Int) =
            (if num_channels = -1 then (sigspec.output_channels : Int)
             else num_channels))))) ∧
    checkargs_backward grad sigspec (-1) =
      checkargs_backward grad sigspec (sigspec.output_channels : Int) := by
  refine ⟨?_, ?_, ?_⟩
  · intro hs
    unfold checkargs_backward
    simp only [hs, if_true]
    split_ifs <;> simp_all <;> tauto
  · intro hs
    unfold checkargs_backward
    simp only [hs, Bool.false_eq_true, if_false]
    split_ifs <;> simp_all <;> tauto
  · unfold checkargs_backward
    simp [ite_self]

/-- C8: `get_backwards_info` on the capsule returned by `make_backwards_info`
yields the context whose `out`, `out_vector`, `path_increments` and owned
`sigspec` equal the values passed in; a subsequent `set_logsignature_data`
call assigns exactly the four log-signature fields and leaves every base
field unchanged. -/
theorem backwards_info_roundtrip (sigspec : SigSpec) (out_vector : List T)
    (out path_increments : T) (signature_vector : List T)
    (transforms : List (Int × Int × Int)) (mode : LogSignatureMode)
    (logsignature_channels : Int) :
    ∃ bi : BackwardsInfo T,
      get_backwards_info
          (make_backwards_info out_vector out path_increments sigspec) = some bi ∧
      bi.out = out ∧ bi.out_vector = out_vector ∧
      bi.path_increments = path_increments ∧ bi.sigspec = sigspec ∧
      (bi.set_logsignature_data signature_vector transforms mode
        logsignature_channels).signature_vector = signature_vector ∧
      (bi.set_logsignature_data signature_vector transforms mode
        logsignature_channels).transforms = transforms ∧
      (bi.set_logsignature_data signature_vector transforms mode
        logsignature_channels).mode = mode ∧
      (bi.set_logsignature_data signature_vector transforms mode
        logsignature_channels).logsignature_channels = logsignature_channels ∧
      (bi.set_logsignature_data signature_vector transforms mode
        logsignature_channels).out = bi.out ∧
      (bi.set_logsignature_data signature_vector transforms mode
        logsignature_channels).out_vector = bi.out_vector ∧
      (bi.set_logsignature_data signature_vector transforms mode
        logsignature_channels).path_increments = bi.path_increments ∧
      (bi.set_logsignature_data signature_vector transforms mode
        logsignature_channels).sigspec = bi.sigspec := by
  refine ⟨BackwardsInfo.make sigspec out_vector out path_increments, ?_,
    rfl, rfl, rfl, rfl, rfl, rfl, rfl, rfl, rfl, rfl, rfl, rfl⟩
  simp [get_backwards_info, make_backwards_info, PyCapsule_New,
    PyCapsule_GetPointer]

/-- C9: `get_backwards_info` verifies the capsule's type tag: whenever the
stored tag differs from the process-wide `backwards_info_capsule_name`, the
retrieval returns no context (the NULL result of `PyCapsule_GetPointer`, a
programmer-error signal) rather than an apparently valid context
reference. -/
theorem get_backwards_info_tag_mismatch (capsule : Capsule T)
    (h : capsule.name ≠ backwards_info_capsule_name) :
    get_backwards_info capsule = none := by
  simp [get_backwards_info, PyCapsule_GetPointer, h]

/-- C9 witness: a capsule tagged "signatory.SomethingElse". -/
theorem get_backwards_info_tag_mismatch_witness :
    badCapsule.name ≠ backwards_info_capsule_name ∧
    get_backwards_info badCapsule = none :=
  ⟨by decide, get_backwards_info_tag_mismatch badCapsule (by decide)⟩

end Signatory
